import Mathlib

/-!
Verification of the caching / cross-category retrieval core of the dnd-mcp
repository, a shallow embedding of the Python source into Lean.

Embedded source files:
* `src/dnd-mcp/tools.py` — `search_all_categories` with its relevance
  scoring, and the helpers `_get_category_items` / `_get_item_details`;
* `src/dnd-mcp/resources.py` — `get_item` (detail fetch with a single
  redirect follow) and `prefetch_category_items` (the cache warm-up).

Python strings become Lean `String`; `str.lower()` / `str.split()` /
`tok in s` / `s.startswith(t)` are embedded over `String.data` with ASCII
case folding.  Dictionaries returned by the upstream API become structures
projecting exactly the fields the embedded code reads or writes.  HTTP calls
(`requests.get(url, timeout?)`) become a function from the URL and the
timeout argument to an outcome: either an exception (timeout, connection
error — these are what the `except` clauses catch) or a response with a
status code, an optional `Location` header and a body.  Each embedded fetch
function also returns the list of HTTP requests it issued, so that theorems
can talk about which upstream calls are made and with which timeout.
-/

/-! ## Python string primitives -/

/-- Embeds Python `str.lower()` (ASCII case folding on the character list). -/
def pyLower (s : String) : String := ⟨s.data.map Char.toLower⟩

/-- Contiguous-run scan: does the character list `n` occur contiguously in
the second list?  Helper for the embedding of the Python `in` operator. -/
def substrAux (n : List Char) : List Char → Bool
  | [] => n.isEmpty
  | c :: t => n.isPrefixOf (c :: t) || substrAux n t

/-- Embeds the Python expression `needle in hay` on strings (substring test;
an empty needle is contained in every string). -/
def substr (needle hay : String) : Bool := substrAux needle.data hay.data

/-- Embeds Python `s.startswith(t)`. -/
def pyStartsWith (s t : String) : Bool := t.data.isPrefixOf s.data

/-- Worker for `pySplit`: first argument is the reversed current chunk. -/
def pySplitGo : List Char → List Char → List String
  | acc, [] => if acc.isEmpty then [] else [String.mk acc.reverse]
  | acc, c :: cs =>
    if c.isWhitespace then
      (if acc.isEmpty then [] else [String.mk acc.reverse]) ++ pySplitGo [] cs
    else pySplitGo (c :: acc) cs

/-- Embeds Python `str.split()` with no separator: split on runs of
whitespace, dropping empty chunks. -/
def pySplit (s : String) : List String := pySplitGo [] s.data

/-! ## Data model

`Item` is an entry of the cached category listing built by
`_get_category_items` (tools.py lines 499-506) and by
`prefetch_category_items` (resources.py lines 81-88): a dict with the keys
`name`, `index`, `description` and `uri`.  `ItemDetail` projects the
upstream detail payload onto the fields the embedded code reads (the
scoring in `search_all_categories`) or writes (`source` in
`resources.get_item`); the `desc` field holds the description text, with a
list-of-paragraphs payload already joined by single spaces as in tools.py
lines 358-361. -/

structure Item where
  name : String
  index : String
  description : String
  uri : String
deriving DecidableEq, Repr

structure ItemDetail where
  desc : String
  equipment_category : String
  rarity : String
  school : String
  classes : List String
  source : String
deriving DecidableEq, Repr

/-- A detail payload with every projected field empty. -/
def emptyDetail : ItemDetail := ⟨"", "", "", "", [], ""⟩

/-! ## Keyword classification (tools.py lines 280-301) -/

def magic_item_keywords : List String :=
  ["magic", "magical", "item", "items", "wand", "staff", "rod", "wondrous"]

def spell_keywords : List String :=
  ["spell", "spells", "cast", "casting", "caster", "magic", "wizard",
   "sorcerer", "warlock", "cleric"]

def monster_keywords : List String :=
  ["monster", "creature", "beast", "dragon", "undead", "fiend", "demon",
   "devil"]

/-- The `category_priorities` dict of `search_all_categories` as a partial
map: `some b` when the category is a key of the dict with boost `b`, `none`
when absent (tools.py lines 280-301). -/
def categoryPriorities (query_tokens : List String) (category : String) :
    Option Nat :=
  let magicQ := magic_item_keywords.any (fun k => query_tokens.contains k)
  let spellQ := spell_keywords.any (fun k => query_tokens.contains k)
  let monsterQ := monster_keywords.any (fun k => query_tokens.contains k)
  if magicQ && category == "magic-items" then some 10
  else if magicQ && category == "equipment" then some 5
  else if spellQ && category == "spells" then some 10
  else if spellQ && category == "classes" then some 5
  else if monsterQ && category == "monsters" then some 10
  else none

/-! ## Relevance scoring (tools.py lines 332-400) -/

/-- The token loop of tools.py lines 340-344: for each token, +20 when it
occurs in the lowered name and +15 when it occurs in the lowered index. -/
def scoreTokensLoop (item_name item_index : String) (score : Nat)
    (tokens : List String) : Nat :=
  tokens.foldl (fun s token =>
    let s := if substr token item_name then s + 20 else s
    if substr token item_index then s + 15 else s) score

/-- A single-field token loop of tools.py (description +5, equipment
category +10, rarity +10, school +10): for each token occurring in the
field, add `w`. -/
def scoreFieldLoop (field : String) (w : Nat) (score : Nat)
    (tokens : List String) : Nat :=
  tokens.foldl (fun s token => if substr token field then s + w else s) score

/-- The classes loop of tools.py lines 392-396: +15 for each token occurring
in at least one of the lowered class names. -/
def scoreClassesLoop (classes : List String) (score : Nat)
    (tokens : List String) : Nat :=
  tokens.foldl (fun s token =>
    if classes.any (fun c => substr token c) then s + 15 else s) score

/-- The relevance score of one candidate item, as computed by
`search_all_categories` (tools.py lines 332-400).  `priorities` is the
`category_priorities` map, `query_lower` the lowered query, `tokens` the
lowered whitespace-split query tokens, and `detail?` the detail payload
when one was fetched and carried no error key (tools.py line 355 treats a
missing fetch and an error payload identically). -/
def scoreItem (category : String) (priorities : String → Option Nat)
    (query_lower : String) (tokens : List String) (item : Item)
    (detail? : Option ItemDetail) : Nat :=
  let item_name := pyLower item.name
  let item_index := pyLower item.index
  let score : Nat := 0
  let score := if query_lower == item_name || query_lower == item_index then
    score + 100 else score
  let score := scoreTokensLoop item_name item_index score tokens
  let score := if tokens.all (fun t => substr t item_name) then score + 50
    else score
  let score := if tokens.any (fun t => pyStartsWith item_name t) then
    score + 10 else score
  let score :=
    match detail? with
    | none => score
    | some d =>
      let score := scoreFieldLoop (pyLower d.desc) 5 score tokens
      if category == "magic-items" || category == "equipment" then
        let score := scoreFieldLoop (pyLower d.equipment_category) 10 score
          tokens
        scoreFieldLoop (pyLower d.rarity) 10 score tokens
      else if category == "spells" then
        let score := scoreFieldLoop (pyLower d.school) 10 score tokens
        scoreClassesLoop (d.classes.map pyLower) score tokens
      else score
  match priorities category with
  | some boost => score + boost
  | none => score

/-! ## The specification-side score formula (spec.md section 4.4, step 5) -/

/-- The relevance score as the specification states it: a sum of weighted
match counts and flat bonuses.  `boost` is the category priority boost
(0 when the category has none). -/
def specScore (category : String) (boost : Nat) (query_lower : String)
    (tokens : List String) (item : Item) (detail? : Option ItemDetail) :
    Nat :=
  let item_name := pyLower item.name
  let item_index := pyLower item.index
  (if query_lower == item_name || query_lower == item_index then 100 else 0)
  + 20 * tokens.countP (fun t => substr t item_name)
  + 15 * tokens.countP (fun t => substr t item_index)
  + (if tokens.all (fun t => substr t item_name) then 50 else 0)
  + (if tokens.any (fun t => pyStartsWith item_name t) then 10 else 0)
  + (match detail? with
     | none => 0
     | some d =>
       5 * tokens.countP (fun t => substr t (pyLower d.desc))
       + (if category == "magic-items" || category == "equipment" then
            10 * tokens.countP (fun t => substr t (pyLower d.equipment_category))
            + 10 * tokens.countP (fun t => substr t (pyLower d.rarity))
          else 0)
       + (if category == "spells" then
            10 * tokens.countP (fun t => substr t (pyLower d.school))
            + 15 * tokens.countP
                (fun t => (d.classes.map pyLower).any (fun c => substr t c))
          else 0))
  + boost

/-! ## Stable descending sort

Python `list.sort(key=..., reverse=True)` is a stable sort: the result is
the unique permutation that is ordered by descending key and keeps the
original relative order of elements with equal keys.  `sortDescBy`
computes exactly that permutation (insertion sort that lets an element
pass only strictly greater keys). -/

def insertDescBy (key : α → Nat) (x : α) : List α → List α
  | [] => [x]
  | y :: ys => if key y ≤ key x then x :: y :: ys else y :: insertDescBy key x ys

def sortDescBy (key : α → Nat) : List α → List α
  | [] => []
  | x :: xs => insertDescBy key x (sortDescBy key xs)

/-! ## The search engine (tools.py, `search_all_categories`)

The two cache-through fetch helpers the search calls are abstracted into a
`SearchEnv`: `categoriesResult` is the outcome of the categories lookup of
tools.py lines 259-275 (cache hit, or fetch — `.error` when that fetch
fails or returns a non-200 status); `categoryItems c = none` models
`_get_category_items` returning its error dict, `some items` a successful
listing; `itemDetails c i = none` models `_get_item_details` returning its
error dict (tools.py line 355 then skips all detail bonuses), `some d` a
successful detail payload.  The concrete cache-and-HTTP behaviour of the
two helpers themselves is embedded separately further below. -/

structure SearchEnv where
  categoriesResult : Except String (List String)
  categoryItems : String → Option (List Item)
  itemDetails : String → String → Option ItemDetail

/-- The detail-fetch decision of tools.py lines 325-330: details are
fetched only when some token occurs in the lowered name or index. -/
def candidateDetail (env : SearchEnv) (tokens : List String)
    (category : String) (item : Item) : Option ItemDetail :=
  if tokens.any (fun t =>
      substr t (pyLower item.name) || substr t (pyLower item.index)) then
    env.itemDetails category item.index
  else none

/-- The full score of one enumerated item inside `search_all_categories`,
including tokenization of the query and the detail-fetch decision. -/
def itemScore (env : SearchEnv) (query category : String) (item : Item) :
    Nat :=
  let tokens := pySplit (pyLower query)
  scoreItem category (categoryPriorities tokens) (pyLower query) tokens item
    (candidateDetail env tokens category item)

structure ScoredItem where
  item : Item
  score : Nat
deriving DecidableEq, Repr

/-- The `matching_items` list of one category (tools.py lines 319-407), in
enumeration order: each listed item whose score is strictly positive,
paired with its score. -/
def matchingItems (env : SearchEnv) (query category : String)
    (items : List Item) : List ScoredItem :=
  items.filterMap (fun item =>
    let score := itemScore env query category item
    if score > 0 then some ⟨item, score⟩ else none)

structure CategoryResult where
  category : String
  items : List ScoredItem
  count : Nat
deriving DecidableEq, Repr

structure CatMatch where
  category : String
  item : ScoredItem
deriving DecidableEq, Repr

structure TopResult where
  category : String
  name : String
  index : String
  score : Nat
deriving DecidableEq, Repr

structure SearchResult where
  query : String
  results : List CategoryResult
  total_count : Nat
  top_results : List TopResult
deriving DecidableEq, Repr

inductive SearchOutcome where
  | error (msg : String)
  | ok (result : SearchResult)
deriving DecidableEq, Repr

/-- One iteration of the category loop of tools.py lines 308-426.  The
accumulator carries the `results` entries so far (the dict, as an
association list in insertion order), `total_count`, and `all_matches`. -/
def searchStep (env : SearchEnv) (query : String)
    (acc : List CategoryResult × Nat × List CatMatch) (category : String) :
    List CategoryResult × Nat × List CatMatch :=
  if category == "rule-sections" || category == "rules" then acc
  else
    match env.categoryItems category with
    | none => acc
    | some items =>
      let mi := sortDescBy ScoredItem.score (matchingItems env query category items)
      if mi.isEmpty then acc
      else
        (acc.1 ++ [⟨category, mi.take 5, mi.length⟩],
         acc.2.1 + mi.length,
         acc.2.2 ++ mi.map (fun it => ⟨category, it⟩))

/-- Projection of a global match into a `top_results` entry (tools.py
lines 436-443). -/
def topResultOf (m : CatMatch) : TopResult :=
  ⟨m.category, m.item.item.name, m.item.item.index, m.item.score⟩

/-- The embedding of `search_all_categories` (tools.py lines 248-444). -/
def searchAllCategories (env : SearchEnv) (query : String) : SearchOutcome :=
  match env.categoriesResult with
  | .error msg => .error msg
  | .ok categories =>
    let acc := categories.foldl (searchStep env query) ([], 0, [])
    let sorted := sortDescBy (fun m : CatMatch => m.item.score) acc.2.2
    .ok { query := query
          results := acc.1
          total_count := acc.2.1
          top_results := (sorted.take 5).map topResultOf }

/-! Derived views of the loop, used to state the theorems. -/

/-- The surviving candidates one category contributes: empty for the two
skipped rule categories and for a category whose listing fetch failed. -/
def survivors (env : SearchEnv) (query category : String) : List ScoredItem :=
  if category == "rule-sections" || category == "rules" then []
  else
    match env.categoryItems category with
    | none => []
    | some items => matchingItems env query category items

/-- The `results` entry one category contributes, if any. -/
def categoryEntry (env : SearchEnv) (query category : String) :
    Option CategoryResult :=
  let mi := sortDescBy ScoredItem.score (survivors env query category)
  if mi.isEmpty then none else some ⟨category, mi.take 5, mi.length⟩

/-- The `all_matches` list: every surviving candidate of every category, in
category order, each category already sorted. -/
def mergedMatches (env : SearchEnv) (query : String) (cats : List String) :
    List CatMatch :=
  cats.flatMap (fun c =>
    (sortDescBy ScoredItem.score (survivors env query c)).map (fun it => ⟨c, it⟩))

/-! ## Cache and upstream HTTP model -/

/-- The result dict cached under a category-level key by
`_get_category_items` / `prefetch_category_items`. -/
structure CategoryData where
  category : String
  items : List Item
  count : Nat
deriving DecidableEq, Repr

/-- A cached value: either a category listing or an item detail payload. -/
inductive CacheVal where
  | items (data : CategoryData)
  | detail (d : ItemDetail)
deriving DecidableEq, Repr

/-- Modelled from the spec: the `APICache` class (`cache.py`) is not under
`src/`; only its callers are.  Per spec section 4.1, `get(key)` returns the
stored value only when an entry is present and unexpired, and `set(key,
value)` stores a value under a key.  We model a cache in which nothing
expires during the modelled run as an association list with most-recent
write first. -/
abbrev Cache := List (String × CacheVal)

/-- Modelled from the spec: `APICache.get` on an unexpired cache — the
most recently written value under the key, if any. -/
def cacheGet (c : Cache) (k : String) : Option CacheVal :=
  (c.find? (fun e => e.1 == k)).map (fun e => e.2)

/-- Modelled from the spec: `APICache.set` — write a value under a key. -/
def cacheSet (c : Cache) (k : String) (v : CacheVal) : Cache := (k, v) :: c

/-- An entry of the `results` array of an upstream category listing
response. -/
structure RawItem where
  name : String
  index : String
  url : String
deriving DecidableEq, Repr

/-- Outcome of one `requests.get`: either a raised exception (timeout,
connection error, ...) or a response with status code, optional `Location`
header and parsed JSON body. -/
inductive HttpOutcome (β : Type) where
  | exn (msg : String)
  | resp (status : Nat) (location : Option String) (body : β)
deriving DecidableEq, Repr

/-- The upstream HTTP API: what `requests.get(url, timeout?)` yields, for
listing URLs and for item detail URLs.  The second argument is the
`timeout` keyword argument of the call (`none` when the call passes no
timeout). -/
structure Upstream where
  list : String → Option Nat → HttpOutcome (List RawItem)
  detail : String → Option Nat → HttpOutcome ItemDetail

/-- One issued HTTP request: its URL and the timeout argument it carried. -/
structure Request where
  url : String
  timeout : Option Nat
deriving DecidableEq, Repr

def BASE_URL : String := "https://www.dnd5eapi.co/api"

/-- `REQUEST_TIMEOUT` of resources.py line 16. -/
def REQUEST_TIMEOUT : Nat := 10

/-- The item-level cache key, built identically at tools.py line 524 and
resources.py lines 106 and 242. -/
def itemCacheKey (category index : String) : String :=
  "dnd_item_" ++ category ++ "_" ++ index

/-- The category-level cache key (tools.py line 485, resources.py line 65). -/
def itemsCacheKey (category : String) : String := "dnd_items_" ++ category

/-- The listing URL `f"{BASE_URL}/{category}"`. -/
def listUrl (category : String) : String := BASE_URL ++ "/" ++ category

/-- The detail URL `f"{BASE_URL}/{category}/{index}"`. -/
def detailUrl (category index : String) : String :=
  BASE_URL ++ "/" ++ category ++ "/" ++ index

/-- The listing transform of tools.py lines 499-506 and resources.py lines
81-88 (identical code): build the resource-format item dict. -/
def toResourceItem (category : String) (r : RawItem) : Item :=
  { name := r.name
    index := r.index
    description := "Details about " ++ r.name
    uri := "resource://dnd/item/" ++ category ++ "/" ++ r.index }

/-! ## `_get_category_items` (tools.py lines 483-520)

Returns the result (`.error msg` embeds the `{"error": msg}` dict — the
Python function catches every exception, so it is total), the cache after
the call, and the requests issued.  The `requests.get` at line 492 passes
no timeout. -/

def toolsGetCategoryItems (up : Upstream) (cache : Cache) (category : String) :
    Except String CacheVal × Cache × List Request :=
  let cache_key := itemsCacheKey category
  match cacheGet cache cache_key with
  | some v => (.ok v, cache, [])
  | none =>
    let url := listUrl category
    match up.list url none with
    | .exn e => (.error ("Failed to fetch items: " ++ e), cache, [⟨url, none⟩])
    | .resp status _ body =>
      if status ≠ 200 then
        (.error ("Category '" ++ category ++
            "' not found or API request failed"), cache, [⟨url, none⟩])
      else
        let items := body.map (toResourceItem category)
        let result : CategoryData := ⟨category, items, items.length⟩
        (.ok (.items result), cacheSet cache cache_key (.items result),
         [⟨url, none⟩])

/-! ## `_get_item_details` (tools.py lines 522-543)

The `requests.get` at line 531 passes no timeout.  On a cache hit the
stored value is returned unexamined, whatever pair wrote it. -/

def toolsGetItemDetails (up : Upstream) (cache : Cache)
    (category index : String) : Except String CacheVal × Cache × List Request :=
  let cache_key := itemCacheKey category index
  match cacheGet cache cache_key with
  | some v => (.ok v, cache, [])
  | none =>
    let url := detailUrl category index
    match up.detail url none with
    | .exn e =>
      (.error ("Failed to fetch item details: " ++ e), cache, [⟨url, none⟩])
    | .resp status _ data =>
      if status ≠ 200 then
        (.error ("Item '" ++ index ++ "' not found in category '" ++
            category ++ "' or API request failed"), cache, [⟨url, none⟩])
      else
        (.ok (.detail data), cacheSet cache cache_key (.detail data),
         [⟨url, none⟩])

/-! ## `get_item` (resources.py lines 229-273)

Both `requests.get` calls pass `timeout=REQUEST_TIMEOUT`; a 301 response
with a `Location` header is followed exactly once; the successful payload
gets a `source` attribution before being cached and returned. -/

/-- The source attribution written at resources.py line 265. -/
def setSource (d : ItemDetail) : ItemDetail :=
  { d with source := "D&D 5e API (www.dnd5eapi.co)" }

def getItem (up : Upstream) (cache : Cache) (category index : String) :
    Except String CacheVal × Cache × List Request :=
  let cache_key := itemCacheKey category index
  match cacheGet cache cache_key with
  | some v => (.ok v, cache, [])
  | none =>
    let url := detailUrl category index
    let notFound : Except String CacheVal :=
      .error ("Item '" ++ index ++ "' not found in category '" ++ category ++
        "' or API request failed")
    let failed : String → Except String CacheVal := fun e =>
      .error ("Failed to fetch item " ++ category ++ "/" ++ index ++ ": " ++ e)
    match up.detail url (some REQUEST_TIMEOUT) with
    | .exn e => (failed e, cache, [⟨url, some REQUEST_TIMEOUT⟩])
    | .resp status location data =>
      match (if status == 301 then location else none) with
      | some redirect_url =>
        let log := [⟨url, some REQUEST_TIMEOUT⟩,
                    (⟨redirect_url, some REQUEST_TIMEOUT⟩ : Request)]
        match up.detail redirect_url (some REQUEST_TIMEOUT) with
        | .exn e => (failed e, cache, log)
        | .resp status2 _ data2 =>
          if status2 ≠ 200 then (notFound, cache, log)
          else
            (.ok (.detail (setSource data2)),
             cacheSet cache cache_key (.detail (setSource data2)), log)
      | none =>
        if status ≠ 200 then (notFound, cache, [⟨url, some REQUEST_TIMEOUT⟩])
        else
          (.ok (.detail (setSource data)),
           cacheSet cache cache_key (.detail (setSource data)),
           [⟨url, some REQUEST_TIMEOUT⟩])

/-! ## `prefetch_category_items` (resources.py lines 56-118)

Returns the cache after the warm-up and the list of HTTP requests issued
(the listing request, when the listing was not cached, followed by one
detail request per item whose item-level key was not cached at the moment
it was processed).  Both `requests.get` calls pass
`timeout=REQUEST_TIMEOUT`.  A failed detail fetch (exception or non-200)
caches nothing and the loop continues with the next item. -/

def prefetchItemStep (up : Upstream) (category : String)
    (acc : Cache × List Request) (item : Item) : Cache × List Request :=
  let item_cache_key := itemCacheKey category item.index
  match cacheGet acc.1 item_cache_key with
  | some _ => acc
  | none =>
    let url := detailUrl category item.index
    match up.detail url (some REQUEST_TIMEOUT) with
    | .exn _ => (acc.1, acc.2 ++ [⟨url, some REQUEST_TIMEOUT⟩])
    | .resp status _ data =>
      if status == 200 then
        (cacheSet acc.1 item_cache_key (.detail data),
         acc.2 ++ [⟨url, some REQUEST_TIMEOUT⟩])
      else (acc.1, acc.2 ++ [⟨url, some REQUEST_TIMEOUT⟩])

def prefetchCategoryItems (up : Upstream) (cache : Cache) (category : String) :
    Cache × List Request :=
  let cache_key := itemsCacheKey category
  match cacheGet cache cache_key with
  | some (.items data) =>
    data.items.foldl (prefetchItemStep up category) (cache, [])
  | some (.detail _) =>
    -- A detail payload cached under a category-level key does not occur in
    -- any modelled flow (the two key namespaces are disjoint); the Python
    -- code would fail on the missing "items" key.
    (cache, [])
  | none =>
    let url := listUrl category
    match up.list url (some REQUEST_TIMEOUT) with
    | .exn _ => (cache, [⟨url, some REQUEST_TIMEOUT⟩])
    | .resp status _ body =>
      if status ≠ 200 then (cache, [⟨url, some REQUEST_TIMEOUT⟩])
      else
        let items := body.map (toResourceItem category)
        let category_data : CategoryData := ⟨category, items, items.length⟩
        let cache := cacheSet cache cache_key (.items category_data)
        items.foldl (prefetchItemStep up category)
          (cache, [⟨url, some REQUEST_TIMEOUT⟩])

/-! ## Concrete fixtures used by witnesses and counterexamples -/

def fireballItem : Item := ⟨"Fireball", "fireball", "", ""⟩

/-- One category with one spell; every detail fetch fails (tools.py line
355 then skips only the detail bonuses). -/
def envA : SearchEnv :=
  { categoriesResult := .ok ["spells"]
    categoryItems := fun c => if c == "spells" then some [fireballItem] else none
    itemDetails := fun _ _ => none }

def redSword : Item := ⟨"Red Sword", "red-sword", "", ""⟩

def blueSword : Item := ⟨"Blue Sword", "blue-sword", "", ""⟩

/-- One category with two equally scoring items, to exercise the stable
tie-break. -/
def envB : SearchEnv :=
  { categoriesResult := .ok ["equipment"]
    categoryItems := fun c =>
      if c == "equipment" then some [redSword, blueSword] else none
    itemDetails := fun _ _ => none }

/-- The result of searching `envB` for "sword": both items score 85 and
keep their enumeration order. -/
def rB : SearchResult :=
  { query := "sword"
    results := [⟨"equipment", [⟨redSword, 85⟩, ⟨blueSword, 85⟩], 2⟩]
    total_count := 2
    top_results := [⟨"equipment", "Red Sword", "red-sword", 85⟩,
                    ⟨"equipment", "Blue Sword", "blue-sword", 85⟩] }

def orcItem : Item := ⟨"Orc", "orc", "", ""⟩

/-- One monster whose name, index and description share no token with the
query "monster". -/
def envC : SearchEnv :=
  { categoriesResult := .ok ["monsters"]
    categoryItems := fun c => if c == "monsters" then some [orcItem] else none
    itemDetails := fun _ _ => none }

/-- An upstream that always answers 200 (empty bodies). -/
def upOk : Upstream :=
  { list := fun _ _ => .resp 200 none []
    detail := fun _ _ => .resp 200 none emptyDetail }

/-- An upstream that always answers 404. -/
def up404 : Upstream :=
  { list := fun _ _ => .resp 404 none []
    detail := fun _ _ => .resp 404 none emptyDetail }

def spellsData : CategoryData := ⟨"spells", [fireballItem], 1⟩

/-- A cache holding the spells listing but no item details. -/
def cacheC6 : Cache := [(itemsCacheKey "spells", .items spellsData)]

/-- A distinctive detail payload for the key-collision scenario. -/
def dStored : ItemDetail := ⟨"stored under a b_c", "", "", "", [], ""⟩

/-- An upstream on which every request raises (e.g. a timeout). -/
def upExn : Upstream :=
  { list := fun _ _ => .exn "timeout"
    detail := fun _ _ => .exn "timeout" }

/-! ## Lemmas: the score accumulator equals the weighted-count sum -/

theorem scoreFieldLoop_eq (field : String) (w : Nat) (tokens : List String)
    (s : Nat) :
    scoreFieldLoop field w s tokens =
      s + w * tokens.countP (fun t => substr t field) := by
  induction tokens generalizing s with
  | nil => simp [scoreFieldLoop]
  | cons t ts ih =>
    have step : scoreFieldLoop field w s (t :: ts) =
        scoreFieldLoop field w (if substr t field then s + w else s) ts := rfl
    rw [step, ih, List.countP_cons]
    by_cases h : substr t field
    · simp only [h, if_true, Nat.mul_add, Nat.mul_one]
      omega
    · simp [h]

theorem scoreTokensLoop_eq (item_name item_index : String)
    (tokens : List String) (s : Nat) :
    scoreTokensLoop item_name item_index s tokens =
      s + 20 * tokens.countP (fun t => substr t item_name)
        + 15 * tokens.countP (fun t => substr t item_index) := by
  induction tokens generalizing s with
  | nil => simp [scoreTokensLoop]
  | cons t ts ih =>
    have step : scoreTokensLoop item_name item_index s (t :: ts) =
        scoreTokensLoop item_name item_index
          (let s1 := if substr t item_name then s + 20 else s
           if substr t item_index then s1 + 15 else s1) ts := rfl
    rw [step, ih, List.countP_cons, List.countP_cons]
    by_cases h1 : substr t item_name <;> by_cases h2 : substr t item_index <;>
      simp only [h1, h2, if_true, if_false, Bool.false_eq_true,
        Nat.mul_add, Nat.mul_one, Nat.mul_zero, Nat.add_zero] <;> omega

theorem scoreClassesLoop_eq (classes : List String) (tokens : List String)
    (s : Nat) :
    scoreClassesLoop classes s tokens =
      s + 15 * tokens.countP (fun t => classes.any (fun c => substr t c)) := by
  induction tokens generalizing s with
  | nil => simp [scoreClassesLoop]
  | cons t ts ih =>
    have step : scoreClassesLoop classes s (t :: ts) =
        scoreClassesLoop classes
          (if classes.any (fun c => substr t c) then s + 15 else s) ts := rfl
    rw [step, ih, List.countP_cons]
    by_cases h : classes.any (fun c => substr t c)
    · simp only [h, if_true, Nat.mul_add, Nat.mul_one]
      omega
    · simp [h]

/-- The accumulated score of tools.py lines 332-400 equals the weighted sum
of the specification. -/
theorem score_eq_spec (category : String) (priorities : String → Option Nat)
    (query_lower : String) (tokens : List String) (item : Item)
    (detail? : Option ItemDetail) :
    scoreItem category priorities query_lower tokens item detail? =
      specScore category ((priorities category).getD 0) query_lower tokens
        item detail? := by
  unfold scoreItem specScore
  cases detail? with
  | none =>
    simp only [scoreTokensLoop_eq]
    cases hp : priorities category <;>
      by_cases h1 : (query_lower == pyLower item.name ||
          query_lower == pyLower item.index) = true <;>
      by_cases h2 : (tokens.all fun t => substr t (pyLower item.name)) = true <;>
      by_cases h3 : (tokens.any fun t => pyStartsWith (pyLower item.name) t) = true <;>
      simp [h1, h2, h3]
  | some d =>
    simp only [scoreTokensLoop_eq, scoreFieldLoop_eq, scoreClassesLoop_eq]
    by_cases hc1 : (category == "magic-items" || category == "equipment") = true
    · have hc2 : (category == "spells") = false := by
        rcases Bool.or_eq_true_iff.mp hc1 with h | h <;>
          rw [beq_iff_eq] at h <;> subst h <;> decide
      cases hp : priorities category <;>
        by_cases h1 : (query_lower == pyLower item.name ||
            query_lower == pyLower item.index) = true <;>
        by_cases h2 : (tokens.all fun t => substr t (pyLower item.name)) = true <;>
        by_cases h3 : (tokens.any fun t => pyStartsWith (pyLower item.name) t) = true <;>
        simp [h1, h2, h3, hc1, hc2] <;> omega
    · by_cases hc2 : (category == "spells") = true <;>
        cases hp : priorities category <;>
        by_cases h1 : (query_lower == pyLower item.name ||
            query_lower == pyLower item.index) = true <;>
        by_cases h2 : (tokens.all fun t => substr t (pyLower item.name)) = true <;>
        by_cases h3 : (tokens.any fun t => pyStartsWith (pyLower item.name) t) = true <;>
        simp [h1, h2, h3, hc1, hc2] <;> omega

/-- The category priority boost is always absent, 5, or 10. -/
theorem boost_cases (tokens : List String) (category : String) :
    categoryPriorities tokens category = none ∨
    categoryPriorities tokens category = some 5 ∨
    categoryPriorities tokens category = some 10 := by
  simp only [categoryPriorities]
  split_ifs <;> tauto

/-! ## Lemmas about the stable descending sort -/

theorem length_insertDescBy (key : α → Nat) (x : α) (l : List α) :
    (insertDescBy key x l).length = l.length + 1 := by
  induction l with
  | nil => rfl
  | cons y ys ih =>
    unfold insertDescBy
    split
    · simp
    · simp [ih]

theorem length_sortDescBy (key : α → Nat) (l : List α) :
    (sortDescBy key l).length = l.length := by
  induction l with
  | nil => rfl
  | cons x xs ih => simp [sortDescBy, length_insertDescBy, ih]

theorem sortDescBy_eq_nil_iff (key : α → Nat) (l : List α) :
    sortDescBy key l = [] ↔ l = [] := by
  constructor
  · intro h
    have := length_sortDescBy key l
    rw [h] at this
    exact List.length_eq_zero.mp this.symm
  · intro h; subst h; rfl

theorem perm_insertDescBy (key : α → Nat) (x : α) (l : List α) :
    List.Perm (insertDescBy key x l) (x :: l) := by
  induction l with
  | nil => exact List.Perm.refl _
  | cons y ys ih =>
    unfold insertDescBy
    split
    · exact List.Perm.refl _
    · exact ((ih.cons y).trans (List.Perm.swap x y ys))

theorem perm_sortDescBy (key : α → Nat) (l : List α) :
    List.Perm (sortDescBy key l) l := by
  induction l with
  | nil => exact List.Perm.refl _
  | cons x xs ih => exact (perm_insertDescBy key x _).trans (ih.cons x)

/-- Stability of the insertion step: among elements whose key equals any
fixed value, the insertion keeps the element order of `x :: l`. -/
theorem filter_insertDescBy (key : α → Nat) (x : α) (l : List α) (s : Nat) :
    (insertDescBy key x l).filter (fun y => key y == s) =
      (x :: l).filter (fun y => key y == s) := by
  induction l with
  | nil => rfl
  | cons y ys ih =>
    unfold insertDescBy
    split
    · rfl
    · rename_i h
      by_cases hx : (key x == s) = true <;> by_cases hy : (key y == s) = true
      · rw [beq_iff_eq] at hx hy
        omega
      all_goals
        simp only [List.filter_cons, hx, hy, if_true, if_false, ih,
          Bool.false_eq_true, ite_false, ite_true]

/-- Stability of the sort: among elements whose key equals any fixed value,
the sorted list keeps the original element order. -/
theorem filter_sortDescBy (key : α → Nat) (l : List α) (s : Nat) :
    (sortDescBy key l).filter (fun y => key y == s) =
      l.filter (fun y => key y == s) := by
  induction l with
  | nil => rfl
  | cons x xs ih =>
    calc (insertDescBy key x (sortDescBy key xs)).filter (fun y => key y == s)
        = (x :: sortDescBy key xs).filter (fun y => key y == s) :=
          filter_insertDescBy key x _ s
      _ = (x :: xs).filter (fun y => key y == s) := by
          simp only [List.filter_cons, ih]

theorem pairwise_insertDescBy (key : α → Nat) (x : α) (l : List α)
    (h : l.Pairwise (fun a b => key b ≤ key a)) :
    (insertDescBy key x l).Pairwise (fun a b => key b ≤ key a) := by
  induction l with
  | nil => exact List.pairwise_singleton _ _
  | cons y ys ih =>
    unfold insertDescBy
    split
    · rename_i hxy
      refine List.Pairwise.cons ?_ h
      intro z hz
      rcases List.mem_cons.mp hz with rfl | hz'
      · exact hxy
      · exact le_trans (List.rel_of_pairwise_cons h hz') hxy
    · rename_i hxy
      push_neg at hxy
      refine List.Pairwise.cons ?_ (ih h.tail)
      intro z hz
      have hmem := (perm_insertDescBy key x ys).mem_iff.mp hz
      rcases List.mem_cons.mp hmem with rfl | hz''
      · exact le_of_lt hxy
      · exact List.rel_of_pairwise_cons h hz''

/-- The sort orders by descending key. -/
theorem pairwise_sortDescBy (key : α → Nat) (l : List α) :
    (sortDescBy key l).Pairwise (fun a b => key b ≤ key a) := by
  induction l with
  | nil => simp [sortDescBy]
  | cons x xs ih => exact pairwise_insertDescBy key x _ ih

/-! ## The category loop of `search_all_categories`, in closed form -/

theorem searchFold_eq (env : SearchEnv) (query : String) (cats : List String)
    (rs : List CategoryResult) (tc : Nat) (am : List CatMatch) :
    cats.foldl (searchStep env query) (rs, tc, am) =
      (rs ++ cats.filterMap (categoryEntry env query),
       tc + (cats.map (fun c => (survivors env query c).length)).sum,
       am ++ mergedMatches env query cats) := by
  induction cats generalizing rs tc am with
  | nil => simp [mergedMatches]
  | cons c cs ih =>
    rw [List.foldl_cons]
    by_cases hskip : (c == "rule-sections" || c == "rules") = true
    · have hstep : searchStep env query (rs, tc, am) c = (rs, tc, am) := by
        simp [searchStep, hskip]
      have hsurv : survivors env query c = [] := by
        simp [survivors, hskip]
      have hentry : categoryEntry env query c = none := by
        simp [categoryEntry, hsurv, sortDescBy]
      rw [hstep, ih]
      simp [List.filterMap_cons, hentry, hsurv, mergedMatches,
        List.flatMap_cons, sortDescBy]
    · cases hitems : env.categoryItems c with
      | none =>
        have hstep : searchStep env query (rs, tc, am) c = (rs, tc, am) := by
          simp [searchStep, hskip, hitems]
        have hsurv : survivors env query c = [] := by
          simp [survivors, hskip, hitems]
        have hentry : categoryEntry env query c = none := by
          simp [categoryEntry, hsurv, sortDescBy]
        rw [hstep, ih]
        simp [List.filterMap_cons, hentry, hsurv, mergedMatches,
          List.flatMap_cons, sortDescBy]
      | some items =>
        have hsurv : survivors env query c = matchingItems env query c items := by
          simp [survivors, hskip, hitems]
        by_cases hempty :
            (sortDescBy ScoredItem.score (matchingItems env query c items)).isEmpty = true
        · have hnil : matchingItems env query c items = [] := by
            rw [List.isEmpty_iff] at hempty
            exact (sortDescBy_eq_nil_iff _ _).mp hempty
          have hstep : searchStep env query (rs, tc, am) c = (rs, tc, am) := by
            simp [searchStep, hskip, hitems, hempty]
          have hentry : categoryEntry env query c = none := by
            simp [categoryEntry, hsurv, hnil, sortDescBy]
          rw [hstep, ih]
          simp [List.filterMap_cons, hentry, hsurv, hnil, mergedMatches,
            List.flatMap_cons, sortDescBy]
        · have hstep : searchStep env query (rs, tc, am) c =
              (rs ++ [⟨c,
                 (sortDescBy ScoredItem.score (matchingItems env query c items)).take 5,
                 (sortDescBy ScoredItem.score (matchingItems env query c items)).length⟩],
               tc + (sortDescBy ScoredItem.score (matchingItems env query c items)).length,
               am ++ (sortDescBy ScoredItem.score (matchingItems env query c items)).map
                 (fun it => ⟨c, it⟩)) := by
            simp [searchStep, hskip, hitems, hempty]
          have hentry : categoryEntry env query c = some
              ⟨c, (sortDescBy ScoredItem.score (matchingItems env query c items)).take 5,
                 (sortDescBy ScoredItem.score (matchingItems env query c items)).length⟩ := by
            simp [categoryEntry, hsurv, hempty]
          rw [hstep, ih]
          refine Prod.ext ?_ (Prod.ext ?_ ?_)
          · simp [List.filterMap_cons, hentry, List.append_assoc]
          · simp only [List.map_cons, List.sum_cons, hsurv, length_sortDescBy]
            omega
          · simp [mergedMatches, List.flatMap_cons, hsurv, List.append_assoc]

/-- `search_all_categories` in closed form, when the categories lookup
succeeds. -/
theorem searchAllCategories_ok (env : SearchEnv) (query : String)
    (cats : List String) (h : env.categoriesResult = .ok cats) :
    searchAllCategories env query = .ok
      { query := query
        results := cats.filterMap (categoryEntry env query)
        total_count := (cats.map (fun c => (survivors env query c).length)).sum
        top_results := ((sortDescBy (fun m : CatMatch => m.item.score)
          (mergedMatches env query cats)).take 5).map topResultOf } := by
  unfold searchAllCategories
  rw [h]
  simp [searchFold_eq]

/-- Unpacking a produced `results` entry. -/
theorem categoryEntry_some (env : SearchEnv) (query c : String)
    (cr : CategoryResult) (h : categoryEntry env query c = some cr) :
    cr.category = c ∧
    cr.items = (sortDescBy ScoredItem.score (survivors env query c)).take 5 ∧
    cr.count = (sortDescBy ScoredItem.score (survivors env query c)).length ∧
    survivors env query c ≠ [] := by
  simp only [categoryEntry] at h
  split at h
  · cases h
  · rename_i hne
    cases h
    refine ⟨rfl, rfl, rfl, ?_⟩
    intro hnil
    rw [List.isEmpty_iff] at hne
    exact hne ((sortDescBy_eq_nil_iff _ _).mpr hnil)

theorem survivors_of_none (env : SearchEnv) (query c : String)
    (h : env.categoryItems c = none) : survivors env query c = [] := by
  unfold survivors
  split
  · rfl
  · simp [h]

theorem survivors_mem_some (env : SearchEnv) (query c : String)
    (x : ScoredItem) (h : x ∈ survivors env query c) :
    ∃ items, env.categoryItems c = some items := by
  cases hit : env.categoryItems c with
  | none =>
    rw [survivors_of_none env query c hit] at h
    cases h
  | some items => exact ⟨items, rfl⟩

/-- Decomposing membership in the merged global match list. -/
theorem mergedMatches_mem (env : SearchEnv) (query : String)
    (cats : List String) (m : CatMatch)
    (h : m ∈ mergedMatches env query cats) :
    m.category ∈ cats ∧ m.item ∈ survivors env query m.category := by
  unfold mergedMatches at h
  rw [List.mem_flatMap] at h
  obtain ⟨c, hc, hm⟩ := h
  rw [List.mem_map] at hm
  obtain ⟨it, hit, rfl⟩ := hm
  exact ⟨hc, (perm_sortDescBy _ _).mem_iff.mp hit⟩

/-- The survivor count of a fetched category counts exactly the items with
a strictly positive score. -/
theorem length_matchingItems (env : SearchEnv) (query c : String)
    (items : List Item) :
    (matchingItems env query c items).length =
      items.countP (fun item => decide (0 < itemScore env query c item)) := by
  induction items with
  | nil => rfl
  | cons it its ih =>
    unfold matchingItems at ih ⊢
    rw [List.filterMap_cons, List.countP_cons]
    by_cases h : 0 < itemScore env query c it
    · have hif : (if itemScore env query c it > 0
          then some (⟨it, itemScore env query c it⟩ : ScoredItem)
          else none) = some ⟨it, itemScore env query c it⟩ := by simp [h]
      simp [hif, ih, h]
    · have hif : (if itemScore env query c it > 0
          then some (⟨it, itemScore env query c it⟩ : ScoredItem)
          else none) = none := by simp [h]
      simp [hif, ih, h]

/-- C1: for every search query and every candidate item of a searched
category, the relevance score computed by `search_all_categories` equals
exactly the specification sum: +100 for an exact lowered-query match on
name or index; +20 per token that is a substring of the name and +15 per
token that is a substring of the index; +50 when every token is a
substring of the name; +10 when the name starts with at least one token;
when item detail was fetched (and only then), +5 per token in the
description, +10 per token in the equipment-category field and +10 per
token in the rarity field for the equipment and magic-items categories,
+10 per token in the spell school and +15 per token occurring in one of
the spell class names for the spells category; plus the category priority
boost of the keyword classification, which is always absent, 5 or 10. -/
theorem claim_C1_score_decomposition :
    (∀ (category : String) (priorities : String → Option Nat)
       (query_lower : String) (tokens : List String) (item : Item)
       (detail? : Option ItemDetail),
       scoreItem category priorities query_lower tokens item detail? =
         specScore category ((priorities category).getD 0) query_lower tokens
           item detail?)
    ∧ (∀ (env : SearchEnv) (query category : String) (item : Item),
       itemScore env query category item =
         specScore category
           ((categoryPriorities (pySplit (pyLower query)) category).getD 0)
           (pyLower query) (pySplit (pyLower query)) item
           (candidateDetail env (pySplit (pyLower query)) category item))
    ∧ (∀ (tokens : List String) (category : String),
       (categoryPriorities tokens category).getD 0 = 0 ∨
       (categoryPriorities tokens category).getD 0 = 5 ∨
       (categoryPriorities tokens category).getD 0 = 10) := by
  refine ⟨score_eq_spec, ?_, ?_⟩
  · intro env query category item
    exact score_eq_spec category (categoryPriorities (pySplit (pyLower query)))
      (pyLower query) (pySplit (pyLower query)) item
      (candidateDetail env (pySplit (pyLower query)) category item)
  · intro tokens category
    rcases boost_cases tokens category with h | h | h <;> simp [h]

/-- C2: every per-category result list has at most 5 items; the global
`top_results` list is the 5-element (or shorter) head of all surviving
candidates merged and sorted by descending score; and `total_count` is the
un-capped sum over categories of the number of candidates with score
strictly greater than 0 (a zero-score candidate is discarded and
contributes nothing). -/
theorem claim_C2_result_bounds (env : SearchEnv) (query : String)
    (cats : List String) (h : env.categoriesResult = .ok cats) :
    ∃ r, searchAllCategories env query = .ok r ∧
      (∀ cr ∈ r.results, cr.items.length ≤ 5) ∧
      r.top_results.length ≤ 5 ∧
      r.top_results = ((sortDescBy (fun m : CatMatch => m.item.score)
        (mergedMatches env query cats)).take 5).map topResultOf ∧
      (∀ t ∈ r.top_results, ∃ m, m ∈ mergedMatches env query cats ∧
        t = topResultOf m) ∧
      r.total_count =
        (cats.map (fun c => (survivors env query c).length)).sum ∧
      (∀ c items, env.categoryItems c = some items →
        (c == "rule-sections" || c == "rules") = false →
        (survivors env query c).length =
          items.countP (fun item => decide (0 < itemScore env query c item))) := by
  refine ⟨_, searchAllCategories_ok env query cats h, ?_, ?_, rfl, ?_, rfl, ?_⟩
  · intro cr hcr
    rw [List.mem_filterMap] at hcr
    obtain ⟨c, _, hc⟩ := hcr
    obtain ⟨-, hitems, -⟩ := categoryEntry_some env query c cr hc
    rw [hitems]
    simp [List.length_take]
  · simp [List.length_take]
  · intro t ht
    rw [List.mem_map] at ht
    obtain ⟨m, hm, rfl⟩ := ht
    refine ⟨m, ?_, rfl⟩
    have hm' : m ∈ sortDescBy (fun m : CatMatch => m.item.score)
        (mergedMatches env query cats) := List.take_subset 5 _ hm
    exact (perm_sortDescBy _ _).mem_iff.mp hm'
  · intro c items hitems hskip
    have : survivors env query c = matchingItems env query c items := by
      unfold survivors
      simp [hskip, hitems]
    rw [this, length_matchingItems]

/-- On an empty query the token list is empty, so the all-tokens bonus of
50 holds vacuously for every item, no detail is fetched and no boost
applies: every item scores at least 50. -/
theorem itemScore_empty_ge (env : SearchEnv) (c : String) (item : Item) :
    50 ≤ itemScore env "" c item := by
  unfold itemScore
  rw [score_eq_spec]
  simp only [show pySplit (pyLower "") = ([] : List String) from rfl]
  simp only [show candidateDetail env ([] : List String) c item = none from rfl]
  simp only [show categoryPriorities ([] : List String) c = none from rfl]
  simp only [specScore, List.countP_nil, List.all_nil, List.any_nil,
    Option.getD_none, if_true, Nat.mul_zero, Nat.add_zero, Nat.zero_add,
    Bool.false_eq_true, if_false]
  split <;> omega

/-- On an empty query every item of a fetched, non-skipped category
survives. -/
theorem survivors_empty_query_length (env : SearchEnv) (c : String)
    (items : List Item) (hskip : (c == "rule-sections" || c == "rules") = false)
    (hitems : env.categoryItems c = some items) :
    (survivors env "" c).length = items.length := by
  have hs : survivors env "" c = matchingItems env "" c items := by
    unfold survivors
    simp [hskip, hitems]
  rw [hs, length_matchingItems, List.countP_eq_length]
  intro item _
  have := itemScore_empty_ge env c item
  simp only [decide_eq_true_eq]
  omega

/-- C3 (amended): a category whose category-list fetch fails is skipped
entirely: it appears neither among the per-category results nor among the
top results and contributes nothing to `total_count`; the search still
returns a well-formed result.  An item whose detail fetch fails, however,
is not skipped: it is scored exactly as if no detail had been fetched
(name and index matches only), so it can still contribute matches. -/
theorem claim_C3_failed_fetch_semantics (env : SearchEnv) (query : String)
    (cats : List String) (h : env.categoriesResult = .ok cats) :
    ∃ r, searchAllCategories env query = .ok r ∧
      (∀ cr ∈ r.results, ∃ items, env.categoryItems cr.category = some items) ∧
      (∀ t ∈ r.top_results, ∃ items, env.categoryItems t.category = some items) ∧
      (∀ c, env.categoryItems c = none → survivors env query c = []) ∧
      r.total_count =
        (cats.map (fun c => (survivors env query c).length)).sum ∧
      (∀ (c : String) (item : Item), env.itemDetails c item.index = none →
        itemScore env query c item =
          scoreItem c (categoryPriorities (pySplit (pyLower query)))
            (pyLower query) (pySplit (pyLower query)) item none) := by
  refine ⟨_, searchAllCategories_ok env query cats h, ?_, ?_, ?_, rfl, ?_⟩
  · intro cr hcr
    rw [List.mem_filterMap] at hcr
    obtain ⟨c, _, hc⟩ := hcr
    obtain ⟨hcat, -, -, hne⟩ := categoryEntry_some env query c cr hc
    obtain ⟨x, hx⟩ := List.exists_mem_of_ne_nil _ hne
    rw [hcat]
    exact survivors_mem_some env query c x hx
  · intro t ht
    rw [List.mem_map] at ht
    obtain ⟨m, hm, rfl⟩ := ht
    have hm' : m ∈ mergedMatches env query cats :=
      (perm_sortDescBy _ _).mem_iff.mp (List.take_subset 5 _ hm)
    obtain ⟨-, hmem⟩ := mergedMatches_mem env query cats m hm'
    exact survivors_mem_some env query m.category m.item hmem
  · exact fun c hc => survivors_of_none env query c hc
  · intro c item hdet
    have hnone : candidateDetail env (pySplit (pyLower query)) c item = none := by
      unfold candidateDetail
      split
      · exact hdet
      · rfl
    simp only [itemScore]
    rw [hnone]

/-- C3 counterexample: in `envA` every detail fetch fails, yet the spells
category is not skipped — its item matches with score 195 and contributes
to the per-category results, the top results and `total_count`. -/
theorem claim_C3_counterexample :
    envA.itemDetails "spells" "fireball" = none ∧
    searchAllCategories envA "fireball" = .ok
      { query := "fireball"
        results := [⟨"spells", [⟨fireballItem, 195⟩], 1⟩]
        total_count := 1
        top_results := [⟨"spells", "Fireball", "fireball", 195⟩] } :=
  ⟨rfl, by decide⟩

/-- Witness for C3 at a concrete environment. -/
theorem claim_C3_witness :
    ∃ r, searchAllCategories envA "fireball" = .ok r ∧
      (∀ cr ∈ r.results, ∃ items, envA.categoryItems cr.category = some items) ∧
      (∀ t ∈ r.top_results, ∃ items, envA.categoryItems t.category = some items) ∧
      (∀ c, envA.categoryItems c = none → survivors envA "fireball" c = []) ∧
      r.total_count =
        (["spells"].map (fun c => (survivors envA "fireball" c).length)).sum ∧
      (∀ (c : String) (item : Item), envA.itemDetails c item.index = none →
        itemScore envA "fireball" c item =
          scoreItem c (categoryPriorities (pySplit (pyLower "fireball")))
            (pyLower "fireball") (pySplit (pyLower "fireball")) item none) :=
  claim_C3_failed_fetch_semantics envA "fireball" ["spells"] rfl

/-- C4 (amended): an empty query is not rejected and yields no error: the
search returns a normal result object in which every item of every
fetched, non-skipped category survives (each scores at least 50, from the
vacuous all-tokens bonus) and `total_count` sums them all.  Requesting an
unknown category makes the listing fetch return a non-200 status, which
`_get_category_items` converts to a structured error value — not an
exception and not a match list. -/
theorem claim_C4_empty_query_and_unknown_category :
    (∀ (env : SearchEnv) (cats : List String),
      env.categoriesResult = .ok cats →
      ∃ r, searchAllCategories env "" = .ok r ∧
        r.total_count =
          (cats.map (fun c => (survivors env "" c).length)).sum ∧
        (∀ c items, (c == "rule-sections" || c == "rules") = false →
          env.categoryItems c = some items →
          (survivors env "" c).length = items.length) ∧
        (∀ (c : String) (item : Item), 50 ≤ itemScore env "" c item)) ∧
    (∀ (up : Upstream) (cache : Cache) (category : String) (s : Nat)
       (loc : Option String) (b : List RawItem),
      cacheGet cache (itemsCacheKey category) = none →
      up.list (listUrl category) none = .resp s loc b → s ≠ 200 →
      (toolsGetCategoryItems up cache category).1 =
        .error ("Category '" ++ category ++
          "' not found or API request failed")) := by
  constructor
  · intro env cats h
    refine ⟨_, searchAllCategories_ok env "" cats h, rfl, ?_, ?_⟩
    · intro c items hskip hitems
      exact survivors_empty_query_length env c items hskip hitems
    · exact fun c item => itemScore_empty_ge env c item
  · intro up cache category s loc b hmiss hresp hs
    simp only [toolsGetCategoryItems]
    rw [hmiss, hresp]
    simp [hs]

/-- C4 counterexample: in `envA` the empty query returns a match list with
`total_count = 1` — a normal result object, not a structured error. -/
theorem claim_C4_counterexample :
    searchAllCategories envA "" = .ok
      { query := ""
        results := [⟨"spells", [⟨fireballItem, 50⟩], 1⟩]
        total_count := 1
        top_results := [⟨"spells", "Fireball", "fireball", 50⟩] } := by
  decide

/-- Witness for C4 at a concrete environment and a concrete 404 upstream. -/
theorem claim_C4_witness :
    (∃ r, searchAllCategories envA "" = .ok r ∧
      r.total_count =
        (["spells"].map (fun c => (survivors envA "" c).length)).sum ∧
      (∀ c items, (c == "rule-sections" || c == "rules") = false →
        envA.categoryItems c = some items →
        (survivors envA "" c).length = items.length) ∧
      (∀ (c : String) (item : Item), 50 ≤ itemScore envA "" c item)) ∧
    (toolsGetCategoryItems up404 [] "unknowncat").1 =
      .error "Category 'unknowncat' not found or API request failed" := by
  constructor
  · exact claim_C4_empty_query_and_unknown_category.1 envA ["spells"] rfl
  · exact claim_C4_empty_query_and_unknown_category.2 up404 [] "unknowncat"
      404 none [] rfl rfl (by decide)

/-- Witness for C2 at a concrete environment. -/
theorem claim_C2_witness :
    ∃ r, searchAllCategories envA "fireball" = .ok r ∧
      (∀ cr ∈ r.results, cr.items.length ≤ 5) ∧
      r.top_results.length ≤ 5 ∧
      r.top_results = ((sortDescBy (fun m : CatMatch => m.item.score)
        (mergedMatches envA "fireball" ["spells"])).take 5).map topResultOf ∧
      (∀ t ∈ r.top_results, ∃ m, m ∈ mergedMatches envA "fireball" ["spells"] ∧
        t = topResultOf m) ∧
      r.total_count =
        (["spells"].map (fun c => (survivors envA "fireball" c).length)).sum ∧
      (∀ c items, envA.categoryItems c = some items →
        (c == "rule-sections" || c == "rules") = false →
        (survivors envA "fireball" c).length =
          items.countP
            (fun item => decide (0 < itemScore envA "fireball" c item))) :=
  claim_C2_result_bounds envA "fireball" ["spells"] rfl

/-- C5: both descending sorts of the search are stable: the per-category
result list is the 5-element head of the stable descending sort of that
category's candidates in enumeration order, the global `top_results` list
is the projected 5-element head of the stable descending sort of the
merged candidates, and for any fixed score the sort keeps the original
relative order of the candidates carrying that score (it is also ordered
by descending score). -/
theorem claim_C5_stable_tie_break (env : SearchEnv) (query : String)
    (cats : List String) (r : SearchResult)
    (h : env.categoriesResult = .ok cats)
    (hr : searchAllCategories env query = .ok r) :
    (∀ cr ∈ r.results,
       cr.items =
         (sortDescBy ScoredItem.score (survivors env query cr.category)).take 5) ∧
    (r.top_results = ((sortDescBy (fun m : CatMatch => m.item.score)
        (mergedMatches env query cats)).take 5).map topResultOf) ∧
    (∀ (l : List ScoredItem) (s : Nat),
       (sortDescBy ScoredItem.score l).filter (fun y => y.score == s) =
         l.filter (fun y => y.score == s)) ∧
    (∀ (l : List CatMatch) (s : Nat),
       (sortDescBy (fun m : CatMatch => m.item.score) l).filter
           (fun m => m.item.score == s) =
         l.filter (fun m => m.item.score == s)) ∧
    (∀ (l : List ScoredItem),
       (sortDescBy ScoredItem.score l).Pairwise
         (fun a b => b.score ≤ a.score)) := by
  rw [searchAllCategories_ok env query cats h] at hr
  cases hr
  refine ⟨?_, rfl, ?_, ?_, ?_⟩
  · intro cr hcr
    rw [List.mem_filterMap] at hcr
    obtain ⟨c, _, hc⟩ := hcr
    obtain ⟨hcat, hitems, -, -⟩ := categoryEntry_some env query c cr hc
    rw [hitems, hcat]
  · exact fun l s => filter_sortDescBy ScoredItem.score l s
  · exact fun l s => filter_sortDescBy (fun m : CatMatch => m.item.score) l s
  · exact fun l => pairwise_sortDescBy ScoredItem.score l

/-- Witness for C5 at a concrete environment with a score tie: both sword
items score 85 and keep their enumeration order. -/
theorem claim_C5_witness :
    (∀ cr ∈ rB.results,
       cr.items =
         (sortDescBy ScoredItem.score (survivors envB "sword" cr.category)).take 5) ∧
    (rB.top_results = ((sortDescBy (fun m : CatMatch => m.item.score)
        (mergedMatches envB "sword" ["equipment"])).take 5).map topResultOf) ∧
    (∀ (l : List ScoredItem) (s : Nat),
       (sortDescBy ScoredItem.score l).filter (fun y => y.score == s) =
         l.filter (fun y => y.score == s)) ∧
    (∀ (l : List CatMatch) (s : Nat),
       (sortDescBy (fun m : CatMatch => m.item.score) l).filter
           (fun m => m.item.score == s) =
         l.filter (fun m => m.item.score == s)) ∧
    (∀ (l : List ScoredItem),
       (sortDescBy ScoredItem.score l).Pairwise
         (fun a b => b.score ≤ a.score)) :=
  claim_C5_stable_tie_break envB "sword" ["equipment"] rB rfl (by decide)

/-- Every component of the specification score is non-negative and the
boost is added on top, so the score is at least the boost. -/
theorem boost_le_itemScore (env : SearchEnv) (query category : String)
    (item : Item) :
    (categoryPriorities (pySplit (pyLower query)) category).getD 0 ≤
      itemScore env query category item := by
  unfold itemScore
  rw [score_eq_spec]
  simp only [specScore]
  omega

/-- C9: a query containing a priority keyword boosts every item of the
boosted category unconditionally, so every such item scores strictly above
0 and is counted as a surviving match — even when no query token occurs in
the item at all. -/
theorem claim_C9_boost_makes_all_items_match (env : SearchEnv)
    (query : String) (cats : List String) (category : String)
    (items : List Item) (h : env.categoriesResult = .ok cats)
    (hmem : category ∈ cats)
    (hskip : (category == "rule-sections" || category == "rules") = false)
    (hitems : env.categoryItems category = some items)
    (hboost : 0 < (categoryPriorities (pySplit (pyLower query)) category).getD 0) :
    (∀ item ∈ items, 0 < itemScore env query category item) ∧
    (survivors env query category).length = items.length ∧
    ∃ r, searchAllCategories env query = .ok r ∧
      items.length ≤ r.total_count := by
  have hpos : ∀ item ∈ items, 0 < itemScore env query category item := by
    intro item _
    have := boost_le_itemScore env query category item
    omega
  have hlen : (survivors env query category).length = items.length := by
    have hs : survivors env query category =
        matchingItems env query category items := by
      unfold survivors
      simp [hskip, hitems]
    rw [hs, length_matchingItems, List.countP_eq_length]
    intro item hitem
    have := hpos item hitem
    simp only [decide_eq_true_eq]
    omega
  refine ⟨hpos, hlen, _, searchAllCategories_ok env query cats h, ?_⟩
  rw [← hlen]
  exact List.single_le_sum (fun x _ => Nat.zero_le x) _
    (List.mem_map_of_mem _ hmem)

/-- Witness for C9: the query "monster" boosts the monsters category; the
item "Orc" shares no token with the query and still matches with the boost
as its whole score. -/
theorem claim_C9_witness :
    (∀ item ∈ [orcItem], 0 < itemScore envC "monster" "monsters" item) ∧
    (survivors envC "monster" "monsters").length = ([orcItem] : List Item).length ∧
    ∃ r, searchAllCategories envC "monster" = .ok r ∧
      ([orcItem] : List Item).length ≤ r.total_count :=
  claim_C9_boost_makes_all_items_match envC "monster" ["monsters"] "monsters"
    [orcItem] rfl (by decide) (by decide) (by decide) (by decide)

/-! ## Lemmas about cache keys and the cache -/

theorem itemsKey_ne_itemKey (c c' i : String) :
    itemsCacheKey c ≠ itemCacheKey c' i := by
  intro h
  have hd := congrArg String.data h
  simp only [itemsCacheKey, itemCacheKey, String.data_append] at hd
  have h8 := congrArg (fun l => l[8]?) hd
  simp only at h8
  rw [List.getElem?_append, if_pos (by decide)] at h8
  rw [List.getElem?_append, if_pos (by simp)] at h8
  rw [List.getElem?_append, if_pos (by simp)] at h8
  rw [List.getElem?_append, if_pos (by decide)] at h8
  exact absurd h8 (by decide)

theorem itemCacheKey_index_inj (c i j : String)
    (h : itemCacheKey c i = itemCacheKey c j) : i = j := by
  have hd := congrArg String.data h
  simp only [itemCacheKey, String.data_append] at hd
  exact String.ext (List.append_cancel_left hd)

theorem detailUrl_index_inj (c i j : String)
    (h : detailUrl c i = detailUrl c j) : i = j := by
  have hd := congrArg String.data h
  simp only [detailUrl, String.data_append] at hd
  exact String.ext (List.append_cancel_left hd)

theorem cacheGet_set_self (c : Cache) (k : String) (v : CacheVal) :
    cacheGet (cacheSet c k v) k = some v := by
  simp [cacheGet, cacheSet, List.find?_cons]

theorem cacheGet_set_ne (c : Cache) (k k' : String) (v : CacheVal)
    (h : k ≠ k') : cacheGet (cacheSet c k v) k' = cacheGet c k' := by
  simp only [cacheGet, cacheSet]
  rw [List.find?_cons_of_neg]
  simp [h]

/-! ## Lemmas about the warm-up item loop (resources.py lines 104-118) -/

theorem prefetchItemStep_hit (up : Upstream) (cat : String) (c0 : Cache)
    (calls : List Request) (it : Item)
    (h : cacheGet c0 (itemCacheKey cat it.index) ≠ none) :
    prefetchItemStep up cat (c0, calls) it = (c0, calls) := by
  simp only [prefetchItemStep]
  cases hc : cacheGet c0 (itemCacheKey cat it.index) with
  | some v => rfl
  | none => exact absurd hc h

theorem prefetchItemStep_calls_of_miss (up : Upstream) (cat : String)
    (c0 : Cache) (calls : List Request) (it : Item)
    (h : cacheGet c0 (itemCacheKey cat it.index) = none) :
    (prefetchItemStep up cat (c0, calls) it).2 =
      calls ++ [⟨detailUrl cat it.index, some REQUEST_TIMEOUT⟩] := by
  simp only [prefetchItemStep]
  rw [h]
  cases up.detail (detailUrl cat it.index) (some REQUEST_TIMEOUT) with
  | exn e => rfl
  | resp st loc d =>
    by_cases hst : st == 200 <;> simp [hst]

theorem prefetchItemStep_cache_preserve (up : Upstream) (cat : String)
    (c0 : Cache) (calls : List Request) (it : Item) (k : String)
    (h : k ≠ itemCacheKey cat it.index) :
    cacheGet (prefetchItemStep up cat (c0, calls) it).1 k = cacheGet c0 k := by
  simp only [prefetchItemStep]
  cases hc : cacheGet c0 (itemCacheKey cat it.index) with
  | some v => rfl
  | none =>
    cases up.detail (detailUrl cat it.index) (some REQUEST_TIMEOUT) with
    | exn e => rfl
    | resp st loc d =>
      by_cases hst : st == 200 <;> simp [hst]
      exact cacheGet_set_ne c0 _ k _ (fun he => h he.symm)

theorem prefetchItemStep_cache_mono (up : Upstream) (cat : String)
    (c0 : Cache) (calls : List Request) (it : Item) (k : String)
    (h : cacheGet c0 k ≠ none) :
    cacheGet (prefetchItemStep up cat (c0, calls) it).1 k ≠ none := by
  simp only [prefetchItemStep]
  cases hc : cacheGet c0 (itemCacheKey cat it.index) with
  | some v => exact h
  | none =>
    cases up.detail (detailUrl cat it.index) (some REQUEST_TIMEOUT) with
    | exn e => exact h
    | resp st loc d =>
      by_cases hst : st == 200 <;> simp [hst]
      · by_cases hk : itemCacheKey cat it.index = k
        · rw [← hk, cacheGet_set_self]
          simp
        · rw [cacheGet_set_ne c0 _ k _ hk]
          exact h
      · exact h

theorem prefetchItemStep_success_present (up : Upstream) (cat : String)
    (c0 : Cache) (calls : List Request) (it : Item) (loc : Option String)
    (d : ItemDetail)
    (hu : up.detail (detailUrl cat it.index) (some REQUEST_TIMEOUT) =
      .resp 200 loc d) :
    cacheGet (prefetchItemStep up cat (c0, calls) it).1
      (itemCacheKey cat it.index) ≠ none := by
  simp only [prefetchItemStep]
  cases hc : cacheGet c0 (itemCacheKey cat it.index) with
  | some v => simp [hc]
  | none =>
    rw [hu]
    simp [cacheGet_set_self]

theorem prefetchFold_cache_mono (up : Upstream) (cat : String)
    (items : List Item) :
    ∀ (acc : Cache × List Request) (k : String), cacheGet acc.1 k ≠ none →
      cacheGet (items.foldl (prefetchItemStep up cat) acc).1 k ≠ none := by
  induction items with
  | nil => exact fun acc k h => h
  | cons it its ih =>
    intro acc k h
    rw [List.foldl_cons]
    exact ih _ k (prefetchItemStep_cache_mono up cat acc.1 acc.2 it k h)

theorem prefetchFold_present (up : Upstream) (cat : String)
    (items : List Item) :
    ∀ (c0 : Cache) (calls : List Request),
    (∀ it ∈ items, ∃ loc d,
      up.detail (detailUrl cat it.index) (some REQUEST_TIMEOUT) =
        .resp 200 loc d) →
    ∀ it ∈ items,
      cacheGet (items.foldl (prefetchItemStep up cat) (c0, calls)).1
        (itemCacheKey cat it.index) ≠ none := by
  induction items with
  | nil => intro c0 calls _ it hit; cases hit
  | cons it0 its ih =>
    intro c0 calls hup it hit
    rw [List.foldl_cons]
    rcases List.mem_cons.mp hit with rfl | hit'
    · obtain ⟨loc, d, hu⟩ := hup it (List.mem_cons_self it its)
      exact prefetchFold_cache_mono up cat its _ _
        (prefetchItemStep_success_present up cat c0 calls it loc d hu)
    · rcases hstep : prefetchItemStep up cat (c0, calls) it0 with ⟨c1, calls1⟩
      exact ih c1 calls1
        (fun x hx => hup x (List.mem_cons_of_mem it0 hx)) it hit'

theorem prefetchFold_no_calls (up : Upstream) (cat : String)
    (items : List Item) :
    ∀ (c0 : Cache) (calls : List Request),
    (∀ it ∈ items, cacheGet c0 (itemCacheKey cat it.index) ≠ none) →
    items.foldl (prefetchItemStep up cat) (c0, calls) = (c0, calls) := by
  induction items with
  | nil => intro c0 calls _; rfl
  | cons it its ih =>
    intro c0 calls h
    rw [List.foldl_cons,
      prefetchItemStep_hit up cat c0 calls it (h it (List.mem_cons_self it its))]
    exact ih c0 calls (fun x hx => h x (List.mem_cons_of_mem it hx))

theorem prefetchFold_preserve (up : Upstream) (cat : String)
    (items : List Item) (k : String)
    (h : ∀ it ∈ items, k ≠ itemCacheKey cat it.index) :
    ∀ (acc : Cache × List Request),
      cacheGet (items.foldl (prefetchItemStep up cat) acc).1 k =
        cacheGet acc.1 k := by
  induction items with
  | nil => exact fun acc => rfl
  | cons it its ih =>
    intro acc
    rw [List.foldl_cons]
    rw [ih (fun x hx => h x (List.mem_cons_of_mem it hx))]
    exact prefetchItemStep_cache_preserve up cat acc.1 acc.2 it k
      (h it (List.mem_cons_self it its))

theorem prefetchFold_calls (up : Upstream) (cat : String) (items : List Item) :
    ∀ (c0 : Cache) (calls : List Request),
    (items.map (fun it => it.index)).Nodup →
    (items.foldl (prefetchItemStep up cat) (c0, calls)).2 =
      calls ++ (items.filter
        (fun it => (cacheGet c0 (itemCacheKey cat it.index)).isNone)).map
        (fun it => ⟨detailUrl cat it.index, some REQUEST_TIMEOUT⟩) := by
  induction items with
  | nil => intro c0 calls _; simp
  | cons it its ih =>
    intro c0 calls hnd
    rw [List.map_cons, List.nodup_cons] at hnd
    obtain ⟨hni, hnd'⟩ := hnd
    rw [List.foldl_cons, List.filter_cons]
    cases hc : cacheGet c0 (itemCacheKey cat it.index) with
    | some v =>
      rw [prefetchItemStep_hit up cat c0 calls it (by rw [hc]; simp)]
      rw [ih c0 calls hnd']
      simp [hc]
    | none =>
      have hfil : ∀ (c1 : Cache),
          (∀ x ∈ its, cacheGet c1 (itemCacheKey cat x.index) =
            cacheGet c0 (itemCacheKey cat x.index)) →
          its.filter
            (fun x => (cacheGet c1 (itemCacheKey cat x.index)).isNone) =
          its.filter
            (fun x => (cacheGet c0 (itemCacheKey cat x.index)).isNone) := by
        intro c1 hsame
        exact List.filter_congr (fun x hx => by rw [hsame x hx])
      have hkeys : ∀ x ∈ its,
          itemCacheKey cat x.index ≠ itemCacheKey cat it.index := by
        intro x hx he
        exact hni (itemCacheKey_index_inj cat _ _ he ▸
          List.mem_map_of_mem (fun y => y.index) hx)
      simp only [prefetchItemStep]
      rw [hc]
      cases hu : up.detail (detailUrl cat it.index) (some REQUEST_TIMEOUT) with
      | exn e =>
        rw [ih c0 _ hnd']
        simp [hc, List.append_assoc]
      | resp st loc d =>
        by_cases hst : st == 200
        · simp only [hst, if_true]
          rw [ih _ _ hnd']
          rw [hfil _ (fun x hx => cacheGet_set_ne c0 _ _ _
            (fun he => hkeys x hx he.symm))]
          simp [hc, List.append_assoc]
        · simp only [hst, Bool.false_eq_true, if_false]
          rw [ih c0 _ hnd']
          simp [hc, List.append_assoc]

theorem prefetchFold_timeouts (up : Upstream) (cat : String)
    (items : List Item) :
    ∀ (acc : Cache × List Request),
    (∀ r ∈ acc.2, r.timeout = some REQUEST_TIMEOUT) →
    ∀ r ∈ (items.foldl (prefetchItemStep up cat) acc).2,
      r.timeout = some REQUEST_TIMEOUT := by
  induction items with
  | nil => exact fun acc h => h
  | cons it its ih =>
    intro acc h
    rw [List.foldl_cons]
    refine ih _ ?_
    rcases acc with ⟨c0, calls⟩
    simp only [prefetchItemStep]
    cases hc : cacheGet c0 (itemCacheKey cat it.index) with
    | some v => exact h
    | none =>
      cases up.detail (detailUrl cat it.index) (some REQUEST_TIMEOUT) with
      | exn e =>
        intro r hr
        rcases List.mem_append.mp hr with hr' | hr'
        · exact h r hr'
        · rw [List.mem_singleton.mp hr']
      | resp st loc d =>
        by_cases hst : st == 200 <;> simp only [hst] <;>
          intro r hr <;>
          rcases List.mem_append.mp hr with hr' | hr'
        · exact h r hr'
        · rw [List.mem_singleton.mp hr']
        · exact h r hr'
        · rw [List.mem_singleton.mp hr']

theorem prefetchFold_no_call_of_present (up : Upstream) (cat : String)
    (items : List Item) :
    ∀ (c0 : Cache) (calls : List Request) (idx : String),
    cacheGet c0 (itemCacheKey cat idx) ≠ none →
    (∀ r ∈ calls, r.url ≠ detailUrl cat idx) →
    ∀ r ∈ (items.foldl (prefetchItemStep up cat) (c0, calls)).2,
      r.url ≠ detailUrl cat idx := by
  induction items with
  | nil => exact fun c0 calls idx _ h => h
  | cons it its ih =>
    intro c0 calls idx hpresent hcalls
    rw [List.foldl_cons]
    by_cases hidx : it.index = idx
    · rw [prefetchItemStep_hit up cat c0 calls it (by rw [hidx]; exact hpresent)]
      exact ih c0 calls idx hpresent hcalls
    · have hkne : itemCacheKey cat idx ≠ itemCacheKey cat it.index :=
        fun he => hidx (itemCacheKey_index_inj cat _ _ he).symm
      rcases hstep : prefetchItemStep up cat (c0, calls) it with ⟨c1, calls1⟩
      refine ih c1 calls1 idx ?_ ?_
      · have := prefetchItemStep_cache_preserve up cat c0 calls it
          (itemCacheKey cat idx) hkne
        rw [hstep] at this
        rw [this]
        exact hpresent
      · intro r hr
        cases hc : cacheGet c0 (itemCacheKey cat it.index) with
        | some v =>
          rw [prefetchItemStep_hit up cat c0 calls it (by rw [hc]; simp)] at hstep
          cases hstep
          exact hcalls r hr
        | none =>
          have h2 := prefetchItemStep_calls_of_miss up cat c0 calls it hc
          rw [hstep] at h2
          simp only at h2
          rw [h2] at hr
          rcases List.mem_append.mp hr with hr' | hr'
          · exact hcalls r hr'
          · rw [List.mem_singleton.mp hr']
            simp only
            exact fun he => hidx (detailUrl_index_inj cat _ _ he)

/-- When the listing is cached, the warm-up is exactly the item fold. -/
theorem prefetchCategoryItems_cached (up : Upstream) (cache : Cache)
    (category : String) (data : CategoryData)
    (h : cacheGet cache (itemsCacheKey category) = some (.items data)) :
    prefetchCategoryItems up cache category =
      data.items.foldl (prefetchItemStep up category) (cache, []) := by
  simp only [prefetchCategoryItems]
  rw [h]

/-- C6 (amended): the warm-up issues an upstream detail request for an item
exactly when the item-level cache key is missing (shown by the closed form
of the request log, which also shows that a failing item is skipped without
aborting the remaining items); when every issued fetch succeeds with
status 200, a second warm-up over the resulting cache issues no detail
call at all; and an item already cached before the warm-up is never
requested.  (As originally stated — at most one detail call per item
across two runs over an unchanged cache even in the presence of fetch
failures — the claim is refuted by the counterexample: a failed fetch
caches nothing and is retried by the next run.) -/
theorem claim_C6_prefetch_idempotence (up : Upstream) (cache : Cache)
    (category : String) (data : CategoryData)
    (h : cacheGet cache (itemsCacheKey category) = some (.items data)) :
    ((data.items.map (fun it => it.index)).Nodup →
      (prefetchCategoryItems up cache category).2 =
        (data.items.filter (fun it =>
          (cacheGet cache (itemCacheKey category it.index)).isNone)).map
          (fun it => ⟨detailUrl category it.index, some REQUEST_TIMEOUT⟩)) ∧
    ((∀ it ∈ data.items, ∃ loc d,
        up.detail (detailUrl category it.index) (some REQUEST_TIMEOUT) =
          .resp 200 loc d) →
      (prefetchCategoryItems up
        (prefetchCategoryItems up cache category).1 category).2 = []) ∧
    (∀ it ∈ data.items,
      cacheGet cache (itemCacheKey category it.index) ≠ none →
      ∀ r ∈ (prefetchCategoryItems up cache category).2,
        r.url ≠ detailUrl category it.index) := by
  refine ⟨?_, ?_, ?_⟩
  · intro hnd
    rw [prefetchCategoryItems_cached up cache category data h]
    rw [prefetchFold_calls up category data.items cache [] hnd]
    simp
  · intro hup
    have h1 := prefetchCategoryItems_cached up cache category data h
    have hk : ∀ it ∈ data.items,
        itemsCacheKey category ≠ itemCacheKey category it.index :=
      fun it _ => itemsKey_ne_itemKey category category it.index
    have hpres : cacheGet
        (data.items.foldl (prefetchItemStep up category) (cache, [])).1
        (itemsCacheKey category) = some (.items data) := by
      rw [prefetchFold_preserve up category data.items _ hk (cache, [])]
      exact h
    have hall := prefetchFold_present up category data.items cache [] hup
    rw [h1, prefetchCategoryItems_cached up _ category data hpres,
      prefetchFold_no_calls up category data.items _ [] hall]
  · intro it hit hpresent r hr
    rw [prefetchCategoryItems_cached up cache category data h] at hr
    exact prefetchFold_no_call_of_present up category data.items cache []
      it.index hpresent (by intro r' hr'; cases hr') r hr

/-- C6 counterexample: the detail fetch for the only spell returns 404, so
nothing is cached; two successive warm-ups over the (unchanged, unexpired)
cache issue the same detail request twice — more than once per item. -/
theorem claim_C6_counterexample :
    (prefetchCategoryItems up404 cacheC6 "spells").1 = cacheC6 ∧
    (prefetchCategoryItems up404 cacheC6 "spells").2 =
      [⟨detailUrl "spells" "fireball", some REQUEST_TIMEOUT⟩] ∧
    (prefetchCategoryItems up404
      (prefetchCategoryItems up404 cacheC6 "spells").1 "spells").2 =
      [⟨detailUrl "spells" "fireball", some REQUEST_TIMEOUT⟩] := by
  refine ⟨by decide, by decide, by decide⟩

/-- Witness for C6 at a concrete cache and an all-success upstream. -/
theorem claim_C6_witness :
    ((spellsData.items.map (fun it => it.index)).Nodup →
      (prefetchCategoryItems upOk cacheC6 "spells").2 =
        (spellsData.items.filter (fun it =>
          (cacheGet cacheC6 (itemCacheKey "spells" it.index)).isNone)).map
          (fun it => ⟨detailUrl "spells" it.index, some REQUEST_TIMEOUT⟩)) ∧
    ((∀ it ∈ spellsData.items, ∃ loc d,
        upOk.detail (detailUrl "spells" it.index) (some REQUEST_TIMEOUT) =
          .resp 200 loc d) →
      (prefetchCategoryItems upOk
        (prefetchCategoryItems upOk cacheC6 "spells").1 "spells").2 = []) ∧
    (∀ it ∈ spellsData.items,
      cacheGet cacheC6 (itemCacheKey "spells" it.index) ≠ none →
      ∀ r ∈ (prefetchCategoryItems upOk cacheC6 "spells").2,
        r.url ≠ detailUrl "spells" it.index) :=
  claim_C6_prefetch_idempotence upOk cacheC6 "spells" spellsData rfl

/-- C7 (amended): every request issued by the resources.py paths
(`get_item`, including its redirect follow, and the warm-up) carries
`timeout=REQUEST_TIMEOUT` (10 seconds), while every request issued by the
tools.py helpers (`_get_category_items`, `_get_item_details`) carries no
timeout at all; and an exception raised by the HTTP layer — a timeout
included — is converted by `get_item` into a structured fetch-failure
error, never propagated.  (As originally stated — every upstream request
of every component carries the 10-second timeout — the claim is refuted by
the counterexample: the tools.py requests pass no timeout argument.) -/
theorem claim_C7_request_timeouts :
    (∀ (up : Upstream) (cache : Cache) (category index : String),
      (∀ r ∈ (getItem up cache category index).2.2,
        r.timeout = some REQUEST_TIMEOUT) ∧
      (∀ r ∈ (prefetchCategoryItems up cache category).2,
        r.timeout = some REQUEST_TIMEOUT) ∧
      (∀ r ∈ (toolsGetCategoryItems up cache category).2.2,
        r.timeout = none) ∧
      (∀ r ∈ (toolsGetItemDetails up cache category index).2.2,
        r.timeout = none)) ∧
    (∀ (up : Upstream) (cache : Cache) (category index e : String),
      cacheGet cache (itemCacheKey category index) = none →
      up.detail (detailUrl category index) (some REQUEST_TIMEOUT) = .exn e →
      (getItem up cache category index).1 =
        .error ("Failed to fetch item " ++ category ++ "/" ++ index ++
          ": " ++ e)) := by
  constructor
  · intro up cache category index
    refine ⟨?_, ?_, ?_, ?_⟩
    · simp only [getItem]
      cases cacheGet cache (itemCacheKey category index) with
      | some v => simp
      | none =>
        cases up.detail (detailUrl category index) (some REQUEST_TIMEOUT) with
        | exn e => simp
        | resp st loc d =>
          by_cases h301 : st = 301
          · subst h301
            cases hloc : loc with
            | some redirect =>
              cases hu2 : up.detail redirect (some REQUEST_TIMEOUT) with
              | exn e => simp [hu2]
              | resp st2 l2 d2 =>
                by_cases hst2 : st2 ≠ 200 <;> simp [hu2, hst2]
            | none => simp
          · by_cases hst : st ≠ 200 <;> simp [h301, hst]
    · simp only [prefetchCategoryItems]
      cases cacheGet cache (itemsCacheKey category) with
      | some v =>
        cases v with
        | items data =>
          exact prefetchFold_timeouts up category data.items (cache, [])
            (by intro r hr; cases hr)
        | detail d => intro r hr; cases hr
      | none =>
        cases up.list (listUrl category) (some REQUEST_TIMEOUT) with
        | exn e => simp
        | resp st loc body =>
          by_cases hst : st ≠ 200
          · simp [hst]
          · simp only [hst, if_false]
            refine prefetchFold_timeouts up category _ _ ?_
            intro r hr
            rw [List.mem_singleton.mp hr]
    · simp only [toolsGetCategoryItems]
      cases cacheGet cache (itemsCacheKey category) with
      | some v => simp
      | none =>
        cases up.list (listUrl category) none with
        | exn e => simp
        | resp st loc body =>
          by_cases hst : st ≠ 200 <;> simp [hst]
    · simp only [toolsGetItemDetails]
      cases cacheGet cache (itemCacheKey category index) with
      | some v => simp
      | none =>
        cases up.detail (detailUrl category index) none with
        | exn e => simp
        | resp st loc d =>
          by_cases hst : st ≠ 200 <;> simp [hst]
  · intro up cache category index e hmiss hu
    simp only [getItem]
    rw [hmiss, hu]

/-- C7 counterexample: a cache-missing `_get_item_details` call issues its
request with no timeout argument at all. -/
theorem claim_C7_counterexample :
    (toolsGetItemDetails upOk [] "spells" "fireball").2.2 =
      [⟨detailUrl "spells" "fireball", none⟩] ∧
    ((toolsGetItemDetails upOk [] "spells" "fireball").2.2.all
      (fun r => r.timeout == some REQUEST_TIMEOUT)) = false := by
  exact ⟨by decide, by decide⟩

/-- Witness for C7 at concrete upstreams. -/
theorem claim_C7_witness :
    ((∀ r ∈ (getItem upOk [] "spells" "fireball").2.2,
        r.timeout = some REQUEST_TIMEOUT) ∧
     (∀ r ∈ (prefetchCategoryItems upOk [] "spells").2,
        r.timeout = some REQUEST_TIMEOUT) ∧
     (∀ r ∈ (toolsGetCategoryItems upOk [] "spells").2.2, r.timeout = none) ∧
     (∀ r ∈ (toolsGetItemDetails upOk [] "spells" "fireball").2.2,
        r.timeout = none)) ∧
    (getItem upExn [] "spells" "fireball").1 =
      .error "Failed to fetch item spells/fireball: timeout" :=
  ⟨claim_C7_request_timeouts.1 upOk [] "spells" "fireball",
   claim_C7_request_timeouts.2 upExn [] "spells" "fireball" "timeout" rfl rfl⟩

/-- C8: for every category and index, fetching item detail against an
upstream that answers with a non-success status yields the structured
not-found error value, and an exception from the HTTP layer (the
`requests.get` call or the redirect follow) yields the structured
fetch-failure error value — in `resources.get_item` (including through its
single redirect follow) as well as in `tools._get_item_details`.  Both
embedded functions are total, so no exception ever reaches the caller. -/
theorem claim_C8_nonsuccess_is_structured_error (up : Upstream)
    (cache : Cache) (category index : String)
    (hmiss : cacheGet cache (itemCacheKey category index) = none) :
    (∀ e, up.detail (detailUrl category index) (some REQUEST_TIMEOUT) = .exn e →
      (getItem up cache category index).1 =
        .error ("Failed to fetch item " ++ category ++ "/" ++ index ++
          ": " ++ e)) ∧
    (∀ s loc b,
      up.detail (detailUrl category index) (some REQUEST_TIMEOUT) =
        .resp s loc b →
      s ≠ 200 → (s = 301 → loc = none) →
      (getItem up cache category index).1 =
        .error ("Item '" ++ index ++ "' not found in category '" ++
          category ++ "' or API request failed")) ∧
    (∀ loc2 b,
      up.detail (detailUrl category index) (some REQUEST_TIMEOUT) =
        .resp 301 (some loc2) b →
      (∀ e, up.detail loc2 (some REQUEST_TIMEOUT) = .exn e →
        (getItem up cache category index).1 =
          .error ("Failed to fetch item " ++ category ++ "/" ++ index ++
            ": " ++ e)) ∧
      (∀ s2 l2 b2, up.detail loc2 (some REQUEST_TIMEOUT) = .resp s2 l2 b2 →
        s2 ≠ 200 →
        (getItem up cache category index).1 =
          .error ("Item '" ++ index ++ "' not found in category '" ++
            category ++ "' or API request failed"))) ∧
    (∀ e, up.detail (detailUrl category index) none = .exn e →
      (toolsGetItemDetails up cache category index).1 =
        .error ("Failed to fetch item details: " ++ e)) ∧
    (∀ s loc b, up.detail (detailUrl category index) none = .resp s loc b →
      s ≠ 200 →
      (toolsGetItemDetails up cache category index).1 =
        .error ("Item '" ++ index ++ "' not found in category '" ++
          category ++ "' or API request failed")) := by
  refine ⟨?_, ?_, ?_, ?_, ?_⟩
  · intro e hu
    simp only [getItem]
    rw [hmiss, hu]
  · intro s loc b hu hs h301
    simp only [getItem]
    rw [hmiss, hu]
    by_cases hs301 : s = 301
    · rw [h301 hs301]
      simp [hs]
    · simp [hs301, hs]
  · intro loc2 b hu
    constructor
    · intro e hu2
      simp only [getItem]
      rw [hmiss, hu]
      simp [hu2]
    · intro s2 l2 b2 hu2 hs2
      simp only [getItem]
      rw [hmiss, hu]
      simp [hu2, hs2]
  · intro e hu
    simp only [toolsGetItemDetails]
    rw [hmiss, hu]
  · intro s loc b hu hs
    simp only [toolsGetItemDetails]
    rw [hmiss, hu]
    simp [hs]

/-- Witness for C8: a 404 upstream yields the structured not-found error
for an unknown index, from both fetch paths. -/
theorem claim_C8_witness :
    (getItem up404 ([] : Cache) "spells" "unknown-index").1 =
      .error "Item 'unknown-index' not found in category 'spells' or API request failed" ∧
    (toolsGetItemDetails up404 ([] : Cache) "spells" "unknown-index").1 =
      .error "Item 'unknown-index' not found in category 'spells' or API request failed" :=
  ⟨((claim_C8_nonsuccess_is_structured_error up404 [] "spells" "unknown-index"
      rfl).2.1) 404 none emptyDetail rfl (by decide) (by intro h; cases h),
   ((claim_C8_nonsuccess_is_structured_error up404 [] "spells" "unknown-index"
      rfl).2.2.2.2) 404 none emptyDetail rfl (by decide)⟩

/-- C10: the item-level cache key is the bare concatenation
`"dnd_item_" ++ category ++ "_" ++ index`; the mapping is not injective —
the distinct pairs ("a", "b_c") and ("a_b", "c") collide — and the detail
cached for one pair is returned verbatim (with no upstream request) when
the other pair is requested. -/
theorem claim_C10_cache_key_collision :
    itemCacheKey "a" "b_c" = itemCacheKey "a_b" "c" ∧
    ("a", "b_c") ≠ (("a_b", "c") : String × String) ∧
    toolsGetItemDetails upOk
        (cacheSet [] (itemCacheKey "a" "b_c") (.detail dStored)) "a_b" "c" =
      (.ok (.detail dStored),
       cacheSet [] (itemCacheKey "a" "b_c") (.detail dStored), []) := by
  refine ⟨by decide, by decide, ?_⟩
  rfl
